import Mathlib

/-!
Verification development for the rag-system ingestion-to-retrieval pipeline
(`rag_app`): shallow embedding of the data model (`Document`, metadata maps),
the content-hash deduplicating vector-store wrapper (`vectorstore.py`), the
chunker configuration (`ingest.py` + the langchain
`RecursiveCharacterTextSplitter` it instantiates), the loader dispatch
(`ingest.py`, `loaders/`), and the source formatter (`retrieval.py`),
together with theorems settling the specified properties.
-/

set_option maxRecDepth 4000

namespace RagApp

/-! ## Data model

Python dict values appearing in document metadata are strings, ints, or bools
(`source`, `file_path`, `file_type`, `title`, `content_hash` are strings;
`page`, `cell_index`, `docstring_count`, `cell_count` are ints; `is_code` is a
bool). Metadata is an insertion-ordered mapping, embedded as an association
list with first-occurrence lookup and replace-or-append insertion, matching
Python dict semantics (keys are unique by construction). -/

inductive MValue where
  | str (s : String)
  | int (n : Int)
  | bool (b : Bool)
  deriving DecidableEq, Repr

abbrev Metadata := List (String × MValue)

/-- Lookup `m[k]`: the value at the first (by dict uniqueness, only) binding
of `k`, or `none` when `k` is absent. -/
def dictLookup (m : Metadata) (k : String) : Option MValue :=
  match m with
  | [] => none
  | (k', v) :: rest => if k' = k then some v else dictLookup rest k

/-- Assignment `m[k] = v`: replace the value at an existing binding of `k`,
else append a new binding (Python dicts keep insertion order). -/
def dictInsert (m : Metadata) (k : String) (v : MValue) : Metadata :=
  match m with
  | [] => [(k, v)]
  | (k', v') :: rest =>
      if k' = k then (k', v) :: rest else (k', v') :: dictInsert rest k v

/-- LangChain `Document` (`langchain.schema.Document`): `page_content` text
plus a metadata mapping. -/
structure Document where
  page_content : String
  metadata : Metadata
  deriving DecidableEq, Repr

/-! ## Content hash: `_get_text_hash` (vectorstore.py lines 16-26)

`hashlib.sha256(text.encode()).hexdigest()`: SHA-256 of the UTF-8 encoding
of the text, rendered as 64 lowercase hex digits.  The SHA-256 core is
embedded over `Nat` with explicit reduction modulo `2^32`. -/

/-- UTF-8 encoding of one code point (what Python `str.encode()` does per
character), as a list of byte values. -/
def utf8EncodeCharBytes (c : Char) : List Nat :=
  let n := c.toNat
  if n < 128 then [n]
  else if n < 2048 then [192 + n / 64, 128 + n % 64]
  else if n < 65536 then [224 + n / 4096, 128 + (n / 64) % 64, 128 + n % 64]
  else [240 + n / 262144, 128 + (n / 4096) % 64, 128 + (n / 64) % 64, 128 + n % 64]

/-- UTF-8 encoding of a string as a byte list (`text.encode()`). -/
def utf8Bytes (text : String) : List Nat :=
  text.data.flatMap utf8EncodeCharBytes

def mask32 (x : Nat) : Nat := x % 4294967296

def shiftRight32 (n x : Nat) : Nat := Nat.shiftRight x n

def rotr32 (n x : Nat) : Nat :=
  mask32 (Nat.lor (Nat.shiftRight x n) (Nat.shiftLeft x (32 - n)))

def not32 (x : Nat) : Nat := Nat.xor x 4294967295

def bsig0 (x : Nat) : Nat := Nat.xor (rotr32 2 x) (Nat.xor (rotr32 13 x) (rotr32 22 x))

def bsig1 (x : Nat) : Nat := Nat.xor (rotr32 6 x) (Nat.xor (rotr32 11 x) (rotr32 25 x))

def ssig0 (x : Nat) : Nat := Nat.xor (rotr32 7 x) (Nat.xor (rotr32 18 x) (shiftRight32 3 x))

def ssig1 (x : Nat) : Nat := Nat.xor (rotr32 17 x) (Nat.xor (rotr32 19 x) (shiftRight32 10 x))

def chFn (x y z : Nat) : Nat := Nat.xor (Nat.land x y) (Nat.land (not32 x) z)

def majFn (x y z : Nat) : Nat :=
  Nat.xor (Nat.land x y) (Nat.xor (Nat.land x z) (Nat.land y z))

/-- The 64 SHA-256 round constants (FIPS 180-4, in decimal). -/
def sha256K : List Nat :=
  [1116352408, 1899447441, 3049323471, 3921009573, 961987163,
   1508970993, 2453635748, 2870763221, 3624381080, 310598401,
   607225278, 1426881987, 1925078388, 2162078206, 2614888103,
   3248222580, 3835390401, 4022224774, 264347078, 604807628,
   770255983, 1249150122, 1555081692, 1996064986, 2554220882,
   2821834349, 2952996808, 3210313671, 3336571891, 3584528711,
   113926993, 338241895, 666307205, 773529912, 1294757372,
   1396182291, 1695183700, 1986661051, 2177026350, 2456956037,
   2730485921, 2820302411, 3259730800, 3345764771, 3516065817,
   3600352804, 4094571909, 275423344, 430227734, 506948616,
   659060556, 883997877, 958139571, 1322822218, 1537002063,
   1747873779, 1955562222, 2024104815, 2227730452, 2361852424,
   2428436474, 2756734187, 3204031479, 3329325298]

/-- The SHA-256 initial hash state (FIPS 180-4, in decimal). -/
def sha256H0 : List Nat :=
  [1779033703, 3144134277, 1013904242, 2773480762,
   1359893119, 2600822924, 528734635, 1541459225]

/-- Big-endian byte rendering of `x` in `n` bytes. -/
def toBytesBE (n x : Nat) : List Nat :=
  (List.range n).map (fun i => (Nat.shiftRight x (8 * (n - 1 - i))) % 256)

/-- SHA-256 padding: append `0x80`, zero bytes to 56 mod 64, then the bit
length as 8 big-endian bytes. -/
def sha256Pad (msg : List Nat) : List Nat :=
  let k := (64 + 56 - ((msg.length + 1) % 64)) % 64
  msg ++ 0x80 :: List.replicate k 0 ++ toBytesBE 8 (8 * msg.length)

/-- Group a padded byte list into 16-word (64-byte) blocks of 32-bit words. -/
def bytesToWords : List Nat → List Nat
  | b0 :: b1 :: b2 :: b3 :: rest =>
      (((b0 * 256 + b1) * 256 + b2) * 256 + b3) :: bytesToWords rest
  | _ => []

def toBlocksFuel : Nat → List Nat → List (List Nat)
  | 0, _ => []
  | _ + 1, [] => []
  | n + 1, b :: bytes =>
      bytesToWords ((b :: bytes).take 64) :: toBlocksFuel n ((b :: bytes).drop 64)

/-- Group a padded byte list into 64-byte blocks of 16 words each (the fuel
argument, one unit per byte, only bounds the recursion depth). -/
def toBlocks (bytes : List Nat) : List (List Nat) := toBlocksFuel bytes.length bytes

/-- Message-schedule extension: from the 16 block words to 64 words. -/
def extendSchedule (w : List Nat) : List Nat :=
  (List.range 48).foldl
    (fun acc _ =>
      let l := acc.length
      acc ++ [mask32 (ssig1 (acc.getD (l - 2) 0) + acc.getD (l - 7) 0 +
                      ssig0 (acc.getD (l - 15) 0) + acc.getD (l - 16) 0)])
    w

/-- One SHA-256 compression round on the 8-word working state. -/
def sha256Round (st : List Nat) (kw : Nat × Nat) : List Nat :=
  let a := st.getD 0 0
  let b := st.getD 1 0
  let c := st.getD 2 0
  let d := st.getD 3 0
  let e := st.getD 4 0
  let f := st.getD 5 0
  let g := st.getD 6 0
  let h := st.getD 7 0
  let t1 := mask32 (h + bsig1 e + chFn e f g + kw.1 + kw.2)
  let t2 := mask32 (bsig0 a + majFn a b c)
  [mask32 (t1 + t2), a, b, c, mask32 (d + t1), e, f, g]

/-- Process one 512-bit block: extend the schedule, run 64 rounds, add the
result into the chaining state modulo `2^32`. -/
def sha256Block (h : List Nat) (block : List Nat) : List Nat :=
  let w := extendSchedule block
  let final := (sha256K.zip w).foldl (fun st kw => sha256Round st (kw.2, kw.1)) h
  (h.zip final).map (fun p => mask32 (p.1 + p.2))

/-- SHA-256 digest of a byte list, as 32 byte values. -/
def sha256Bytes (msg : List Nat) : List Nat :=
  ((toBlocks (sha256Pad msg)).foldl sha256Block sha256H0).flatMap (toBytesBE 4)

def hexDigitChar (n : Nat) : Char :=
  if n < 10 then Char.ofNat (48 + n) else Char.ofNat (87 + n)

def byteToHex (b : Nat) : List Char := [hexDigitChar (b / 16), hexDigitChar (b % 16)]

/-- Source `_get_text_hash` (vectorstore.py): the lowercase-hex SHA-256
digest of the UTF-8 encoded text, the deduplication key. -/
def _get_text_hash (text : String) : String :=
  String.mk ((sha256Bytes (utf8Bytes text)).flatMap byteToHex)

example : _get_text_hash "" =
    "e3b0c44298fc1c149afbf4c8996fb92427ae41e4649b934ca495991b7852b855" := by decide

example : _get_text_hash "abc" =
    "ba7816bf8f01cfea414140de5dae2223b00361a396177a9cb410ff61f20015ad" := by decide

/-! ## Configuration (config.py) -/

def CHUNK_SIZE : Nat := 1000

def CHUNK_OVERLAP : Nat := 200

def DEFAULT_K : Nat := 4

def SUPPORTED_EXTENSIONS : List String :=
  [".pdf", ".txt", ".md", ".html", ".htm", ".py", ".ipynb"]

/-! ## Chunker (ingest.py `chunk_documents` + langchain text splitter)

`chunk_documents` instantiates langchain's `RecursiveCharacterTextSplitter`
with `chunk_size=CHUNK_SIZE`, `chunk_overlap=CHUNK_OVERLAP`,
`length_function=len`, separators `["\n\n", "\n", ". ", " ", ""]`, and the
class defaults `keep_separator=True`, `strip_whitespace=True`,
`is_separator_regex=False`.  The definitions below embed that library
algorithm (`langchain/text_splitter.py`: `_split_text_with_regex`,
`TextSplitter._merge_splits`, `TextSplitter._join_docs`,
`RecursiveCharacterTextSplitter._split_text`) over `List Char`, on which
`length` agrees with Python `len` (code points).  Since the separators are
passed with `is_separator_regex=False` they are regex-escaped by the library
and all regex operations are literal-substring operations. -/

/-- Python `str.strip()` whitespace set (ASCII part; the texts handled here
contain no other Unicode space characters). -/
def isPyWs (c : Char) : Bool :=
  c = ' ' || c = '\t' || c = '\n' || c = '\r' || c = '\x0b' || c = '\x0c'

/-- Python `str.strip()` on a character list. -/
def pyStrip (s : List Char) : List Char :=
  ((s.dropWhile isPyWs).reverse.dropWhile isPyWs).reverse

/-- Python `str.strip()` on a string. -/
def pyStripS (s : String) : String := String.mk (pyStrip s.data)

/-- Whether `needle` occurs as a contiguous substring of `hay`
(`re.search` with an escaped, hence literal, pattern). -/
def hasSublist (needle : List Char) : List Char → Bool
  | [] => needle.isEmpty
  | c :: rest => needle.isPrefixOf (c :: rest) || hasSublist needle rest

/-- Split on leftmost non-overlapping occurrences of the (non-empty) literal
separator, returning the between-pieces (what Python `re.split` interleaves
with the captured separators).  `skip` counts separator characters still to
be consumed after a match. -/
def splitOnLitAux (sep : List Char) : List Char → Nat → List Char → List (List Char)
  | [], _, acc => [acc.reverse]
  | _ :: rest, Nat.succ k, acc => splitOnLitAux sep rest k acc
  | c :: rest, 0, acc =>
      if sep.isPrefixOf (c :: rest) then
        acc.reverse :: splitOnLitAux sep rest (sep.length - 1) []
      else splitOnLitAux sep rest 0 (c :: acc)

def splitOnLit (sep text : List Char) : List (List Char) := splitOnLitAux sep text 0 []

/-- Library `_split_text_with_regex(text, escaped sep, keep_separator=True)`:
with a non-empty separator, re-split keeps the delimiters and each delimiter
is glued onto the piece that follows it; with the empty separator the text
becomes its list of characters; empty fragments are filtered out. -/
def splitTextWithSep (sep text : List Char) : List (List Char) :=
  if sep = [] then (text.map (fun c => [c])).filter (· ≠ [])
  else
    match splitOnLit sep text with
    | [] => []
    | p :: ps => (p :: ps.map (fun q => sep ++ q)).filter (· ≠ [])

/-- Separator selection in `RecursiveCharacterTextSplitter._split_text`: scan
the priority list; `""` is taken unconditionally; a separator occurring in
the text is taken together with the remaining tail as the new separator list;
if none is taken the last separator is used with an empty tail. -/
def chooseSepAux (text : List Char) (dflt : List Char) :
    List (List Char) → List Char × List (List Char)
  | [] => (dflt, [])
  | s :: rest =>
      if s = [] then ([], [])
      else if hasSublist s text then (s, rest)
      else chooseSepAux text dflt rest

def chooseSep (seps : List (List Char)) (text : List Char) : List Char × List (List Char) :=
  chooseSepAux text ((seps.getLast?).getD []) seps

/-- Library `_join_docs`: join on the separator, strip whitespace, and drop
the result when empty. -/
def joinDocs (sep : List Char) (ds : List (List Char)) : Option (List Char) :=
  if pyStrip (List.intercalate sep ds) = [] then none
  else some (pyStrip (List.intercalate sep ds))

/-- The overlap-popping `while` loop of `_merge_splits`: drop leading pieces
of the current window while its total exceeds `chunk_overlap`, or while the
next piece would still not fit and the window is non-empty. -/
def popLoop (cs co sepLen dLen : Nat) : List (List Char) → Nat → List (List Char) × Nat
  | [], total => ([], total)
  | c :: cur, total =>
      if total > co ∨ (total + dLen + sepLen > cs ∧ total > 0) then
        popLoop cs co sepLen dLen cur (total - (c.length + if cur = [] then 0 else sepLen))
      else (c :: cur, total)

/-- The main loop of `_merge_splits` over the splits, carrying the current
window and its separator-inclusive total length. -/
def mergeLoop (sep : List Char) (cs co : Nat) :
    List (List Char) → List (List Char) → Nat → List (List Char)
  | [], current, _ =>
      match joinDocs sep current with
      | some d => [d]
      | none => []
  | d :: ds, current, total =>
      if total + d.length + (if current = [] then 0 else sep.length) > cs then
        if current = [] then
          mergeLoop sep cs co ds [d] (total + d.length)
        else
          (match joinDocs sep current with
            | some t => [t]
            | none => []) ++
          mergeLoop sep cs co ds
            ((popLoop cs co sep.length d.length current total).1 ++ [d])
            ((popLoop cs co sep.length d.length current total).2 + d.length +
              if (popLoop cs co sep.length d.length current total).1 = [] then 0
              else sep.length)
      else
        mergeLoop sep cs co ds (current ++ [d])
          (total + d.length + if current = [] then 0 else sep.length)

/-- Library `TextSplitter._merge_splits(splits, separator)`. -/
def mergeSplits (cs co : Nat) (splits : List (List Char)) (sep : List Char) :
    List (List Char) :=
  mergeLoop sep cs co splits [] 0

/-- The per-split loop of `_split_text`: pieces shorter than `chunk_size`
accumulate and get merged; an oversized piece first flushes the accumulated
good splits, then is either emitted as-is (no separators left) or split
recursively (`recurse` is the recursive call on the remaining separators).
With `keep_separator=True` the merge separator is `""`. -/
def processSplits (cs co : Nat) (recurse : List Char → List (List Char))
    (restEmpty : Bool) (mergeSep : List Char) :
    List (List Char) → List (List Char) → List (List Char)
  | [], good => if good = [] then [] else mergeSplits cs co good mergeSep
  | s :: ss, good =>
      if s.length < cs then
        processSplits cs co recurse restEmpty mergeSep ss (good ++ [s])
      else
        (if good = [] then [] else mergeSplits cs co good mergeSep)
          ++ (if restEmpty then [s] else recurse s)
          ++ processSplits cs co recurse restEmpty mergeSep ss []

/-- Library `RecursiveCharacterTextSplitter._split_text(text, separators)`.
The fuel argument only bounds the recursion depth over separator lists,
which strictly shrink at each recursive call; `splitText` below supplies
more fuel than the separator-list length so the `0` case is never reached. -/
def splitTextFuel (cs co : Nat) : Nat → List (List Char) → List Char → List (List Char)
  | 0, _, text => [text]
  | Nat.succ n, seps, text =>
      processSplits cs co (fun t => splitTextFuel cs co n (chooseSep seps text).2 t)
        (chooseSep seps text).2.isEmpty []
        (splitTextWithSep (chooseSep seps text).1 text) []

/-- The separator cascade configured in `chunk_documents` (ingest.py). -/
def SEPARATORS : List (List Char) :=
  ["\n\n".data, "\n".data, ". ".data, " ".data, [] ]

/-- The configured splitter's `split_text`. -/
def splitText (text : List Char) : List (List Char) :=
  splitTextFuel CHUNK_SIZE CHUNK_OVERLAP (SEPARATORS.length + 1) SEPARATORS text

/-- Source `chunk_documents` (ingest.py lines 77-95) by way of the library
`split_documents`/`create_documents`: each document's content is split and
every resulting chunk carries a copy of the parent document's metadata. -/
def chunk_documents (documents : List Document) : List Document :=
  documents.flatMap (fun d =>
    (splitText d.page_content.data).map
      (fun c => { page_content := String.mk c, metadata := d.metadata }))

example :
    chunk_documents [⟨"A is B.", [("source", MValue.str "a.txt")]⟩] =
      [⟨"A is B.", [("source", MValue.str "a.txt")]⟩] := by decide

/-! ## Vector store (vectorstore.py `VectorStore`)

The Chroma collection is embedded as the list of persisted records together
with a flag saying whether the backend `get()` call raises (the index being
unreachable), which is what the `try/except` around the bulk hash read
reacts to.  Stateful Python methods become functions from and to this state;
the in-place mutation of the caller's document list by `add_documents` is
made explicit by returning the post-call list alongside the new state. -/

structure VectorStore where
  stored : List Document
  get_raises : Bool
  deriving DecidableEq, Repr

/-- Result of `add_documents`: the store afterwards, the caller's document
list afterwards (its metadata is mutated in place by the source), and the
returned count. -/
structure AddResult where
  store : VectorStore
  documents : List Document
  count : Nat
  deriving DecidableEq, Repr

/-- Lines 77-78: `doc.metadata["content_hash"] = _get_text_hash(doc.page_content)`. -/
def withContentHash (d : Document) : Document :=
  { d with metadata :=
      dictInsert d.metadata "content_hash" (MValue.str (_get_text_hash d.page_content)) }

/-- Lines 81-89: the bulk read of `content_hash` values already present. On a
raising `get()` the `except` branch leaves `existing_hashes` empty. -/
def existingHashes (vs : VectorStore) : List MValue :=
  if vs.get_raises then []
  else vs.stored.filterMap (fun d => dictLookup d.metadata "content_hash")

/-- The duplicate filter of lines 91-95: keep a document when
`doc.metadata["content_hash"] not in existing_hashes` (the key is always
present, having just been written; a missing key would raise in Python and
cannot occur). -/
def keepNew (existing_hashes : List MValue) (d : Document) : Bool :=
  match dictLookup d.metadata "content_hash" with
  | some v => !(existing_hashes.contains v)
  | none => true

/-- Source `VectorStore.add_documents` (vectorstore.py lines 61-101): return
0 on empty input; stamp every input document's metadata with its content
hash; read existing hashes (empty when the backend read raises); keep only
documents whose hash is absent; append survivors to the collection and
return how many there were. -/
def add_documents (vs : VectorStore) (documents : List Document) : AddResult :=
  if documents = [] then ⟨vs, documents, 0⟩
  else
    let hashed := documents.map withContentHash
    let new_documents := hashed.filter (keepNew (existingHashes vs))
    let vs' :=
      if new_documents = [] then vs
      else { vs with stored := vs.stored ++ new_documents }
    ⟨vs', hashed, new_documents.length⟩

/-- Source `VectorStore.count` (vectorstore.py lines 132-146): the number of
ids in the collection, or 0 when the backend read raises. -/
def countDocs (vs : VectorStore) : Nat :=
  if vs.get_raises then 0 else vs.stored.length

/-! ## Loaders (loaders/) and ingestion (ingest.py)

A file on disk is embedded with the outputs of the external collaborators
the loaders call (spec §1/§6 treats extraction internals as external):
`raw` is the text `open(...).read()` yields (`none` when reading raises),
`soupTitle`/`soupText` are BeautifulSoup's title and `get_text` output,
`docstrings` is what `ast.walk`/`ast.get_docstring` extract (empty on a
`SyntaxError`), `cells` is what `nbformat.read` parses (`none` when it
raises), and `pdfDocs` is `PyPDFLoader.load()`'s output. -/

/-- Python `str.lower()` on the ASCII range (file extensions here are
ASCII). -/
def lowerChar (c : Char) : Char :=
  if 'A' ≤ c ∧ c ≤ 'Z' then Char.ofNat (c.toNat + 32) else c

def strLower (s : String) : String := String.mk (s.data.map lowerChar)

/-- Python `str.split(sep)` for a non-empty literal separator. -/
def splitOnStr (sep s : String) : List String :=
  if sep = "" then [s] else (splitOnLit sep.data s.data).map String.mk

/-- Python `str.startswith`. -/
def startsWithStr (pre s : String) : Bool := pre.data.isPrefixOf s.data

structure NbCell where
  cell_type : String
  source : String
  deriving DecidableEq, Repr

structure SrcFile where
  name : String
  path : String
  stem : String
  suffix : String
  raw : Option String
  soupTitle : Option String
  soupText : String
  docstrings : List String
  cells : Option (List NbCell)
  pdfDocs : Option (List Document)
  deriving DecidableEq, Repr

/-- Errors a loader call can produce: `valueError` is the
`ValueError("Unsupported file type: ...")` of `load_document` (the spec's
`UnsupportedFormat`), `loadFailure` the `Exception("Failed to load ...")`
each loader re-raises. -/
inductive LoadErr where
  | valueError (msg : String)
  | loadFailure (msg : String)
  deriving DecidableEq, Repr

/-- Source `load_text` (text_loader.py): one document holding the raw file
text, typed `markdown` for `.md` files and `text` otherwise. -/
def load_text (f : SrcFile) : Except LoadErr (List Document) :=
  match f.raw with
  | none => .error (.loadFailure ("Failed to load text file " ++ f.path))
  | some content =>
      let file_type := if strLower f.suffix = ".md" then "markdown" else "text"
      .ok [⟨content, [("source", .str f.name), ("file_path", .str f.path),
                      ("file_type", .str file_type)]⟩]

/-- Source `load_html` (html_loader.py): one document holding the soup text
with blank lines stripped out, plus a `title` key (falling back to the file
stem). -/
def load_html (f : SrcFile) : Except LoadErr (List Document) :=
  match f.raw with
  | none => .error (.loadFailure ("Failed to load HTML file " ++ f.path))
  | some _ =>
      let title := f.soupTitle.getD f.stem
      let ls := ((splitOnStr "\n" f.soupText).map pyStripS).filter (· ≠ "")
      let content := String.intercalate "\n" ls
      .ok [⟨content, [("source", .str f.name), ("file_path", .str f.path),
                      ("file_type", .str "html"), ("title", .str title)]⟩]

/-- Source `load_python` (python_loader.py): one document holding the source
code, prefixed by the extracted docstrings when there are any. -/
def load_python (f : SrcFile) : Except LoadErr (List Document) :=
  match f.raw with
  | none => .error (.loadFailure ("Failed to load Python file " ++ f.path))
  | some source_code =>
      let content :=
        if f.docstrings = [] then source_code
        else "=== Docstrings ===\n" ++ String.intercalate "\n\n" f.docstrings ++
             "\n\n=== Source Code ===\n" ++ source_code
      .ok [⟨content, [("source", .str f.name), ("file_path", .str f.path),
                      ("file_type", .str "python"), ("is_code", .bool true),
                      ("docstring_count", .int f.docstrings.length)]⟩]

/-- Source `load_pdf` (pdf_loader.py): the PyPDFLoader documents with
`source`, `file_path`, `file_type` and 1-based `page` written into each
document's metadata. -/
def load_pdf (f : SrcFile) : Except LoadErr (List Document) :=
  match f.pdfDocs with
  | none => .error (.loadFailure ("Failed to load PDF " ++ f.path))
  | some docs =>
      .ok (docs.enum.map (fun p =>
        { p.2 with metadata :=
            dictInsert (dictInsert (dictInsert (dictInsert p.2.metadata
              "source" (.str f.name)) "file_path" (.str f.path))
              "file_type" (.str "pdf")) "page" (.int (p.1 + 1)) }))

/-- Comment/docstring-line extraction from a code cell (notebook_loader.py
lines 42-52): stripped lines starting with `#`, or containing a triple
quote. -/
def extractCellComments (source : String) : List String :=
  (splitOnStr "\n" source).filterMap (fun line =>
    let stripped := pyStripS line
    if startsWithStr "#" stripped then some stripped
    else if hasSublist "\x22\x22\x22".data stripped.data ||
            hasSublist "\x27\x27\x27".data stripped.data then some stripped
    else none)

/-- The cell loop of `load_notebook` (notebook_loader.py lines 32-69): one
document per cell with usable content — all of a markdown cell's source, the
comment lines of a code cell — skipping cells whose content is falsy or
strips to nothing. -/
def notebookCellDocs (f : SrcFile) (cells : List NbCell) : List Document :=
  cells.enum.filterMap (fun p =>
    let content? : Option String :=
      if p.2.cell_type = "markdown" then some p.2.source
      else if p.2.cell_type = "code" then
        let comments := extractCellComments p.2.source
        if comments = [] then none else some (String.intercalate "\n" comments)
      else none
    match content? with
    | none => none
    | some content =>
        if content ≠ "" ∧ pyStripS content ≠ "" then
          some ⟨content, [("source", .str f.name), ("file_path", .str f.path),
                          ("file_type", .str "notebook"),
                          ("cell_index", .int p.1),
                          ("cell_type", .str p.2.cell_type)]⟩
        else none)

/-- Source `load_notebook` (notebook_loader.py): the per-cell documents;
when no cell qualifies, a single placeholder document named after the
notebook. -/
def load_notebook (f : SrcFile) : Except LoadErr (List Document) :=
  match f.raw, f.cells with
  | none, _ => .error (.loadFailure ("Failed to load notebook " ++ f.path))
  | some _, none => .error (.loadFailure ("Failed to load notebook " ++ f.path))
  | some _, some cells =>
      let docs := notebookCellDocs f cells
      if docs = [] then
        .ok [⟨"Jupyter Notebook: " ++ f.name,
              [("source", .str f.name), ("file_path", .str f.path),
               ("file_type", .str "notebook"), ("cell_count", .int cells.length)]⟩]
      else .ok docs

/-- First-match association lookup (Python `dict.get` over the literal
loader table). -/
def assocLookup {α : Type} (table : List (String × α)) (k : String) : Option α :=
  match table with
  | [] => none
  | (k', v) :: rest => if k' = k then some v else assocLookup rest k

/-- Source `LOADER_MAP` (ingest.py lines 28-36). -/
def LOADER_MAP : List (String × (SrcFile → Except LoadErr (List Document))) :=
  [(".pdf", load_pdf), (".txt", load_text), (".md", load_text),
   (".html", load_html), (".htm", load_html), (".py", load_python),
   (".ipynb", load_notebook)]

/-- Source `load_document` (ingest.py lines 55-74): dispatch on the
lowercased extension, raising `ValueError` when no loader is registered. -/
def load_document (f : SrcFile) : Except LoadErr (List Document) :=
  let ext := strLower f.suffix
  match assocLookup LOADER_MAP ext with
  | none => .error (.valueError ("Unsupported file type: " ++ ext))
  | some loader => loader f

/-- The per-file loading loop of `ingest_documents` (lines 123-131): each
file's documents are appended; a file whose load raises is reported and
skipped, and the loop continues. -/
def loadAll (files : List SrcFile) : List Document :=
  files.flatMap (fun f =>
    match load_document f with
    | .ok docs => docs
    | .error _ => [])

/-- The four-key statistics summary `ingest_documents` returns. -/
structure IngestStats where
  files_found : Nat
  documents_loaded : Nat
  chunks_created : Nat
  chunks_added : Nat
  deriving DecidableEq, Repr

/-- Source `ingest_documents` (ingest.py lines 98-160) over the discovered
file list: early return of all-zero statistics when no files were found,
else load every file (skipping per-file failures), chunk, add to the store,
and report the statistics.  The store state is returned alongside. -/
def ingest_documents (files : List SrcFile) (vs : VectorStore) :
    IngestStats × VectorStore :=
  if files = [] then (⟨0, 0, 0, 0⟩, vs)
  else
    let all_documents := loadAll files
    let chunked_docs := chunk_documents all_documents
    let r := add_documents vs chunked_docs
    (⟨files.length, all_documents.length, chunked_docs.length, r.count⟩, r.store)

/-! ## Source formatting (retrieval.py `format_sources`) -/

/-- Python `str()` of a metadata value as interpolated by the f-strings in
`format_sources`. -/
def pyStr : MValue → String
  | .str s => s
  | .int n => toString n
  | .bool b => if b then "True" else "False"

structure SourceInfo where
  filename : MValue
  file_type : MValue
  snippet : String
  location : String
  deriving DecidableEq, Repr

/-- The per-document body of the `format_sources` loop (retrieval.py lines
41-59): filename and file type from metadata with `"Unknown"` defaults, a
snippet truncated to 200 characters with an ellipsis marker, and a location
chosen by the fixed precedence `page`, `cell_index`, `title`, `"N/A"`. -/
def formatSource (doc : Document) : SourceInfo :=
  let metadata := doc.metadata
  { filename := (dictLookup metadata "source").getD (.str "Unknown")
    file_type := (dictLookup metadata "file_type").getD (.str "Unknown")
    snippet :=
      if doc.page_content.length > 200 then
        String.mk (doc.page_content.data.take 200) ++ "..."
      else doc.page_content
    location :=
      match dictLookup metadata "page" with
      | some v => "Page " ++ pyStr v
      | none =>
        match dictLookup metadata "cell_index" with
        | some v => "Cell " ++ pyStr v
        | none =>
          match dictLookup metadata "title" with
          | some v => "Title: " ++ pyStr v
          | none => "N/A" }

/-- Source `format_sources` (retrieval.py lines 29-61): the documents'
source records in order. -/
def format_sources (documents : List Document) : List SourceInfo :=
  documents.map formatSource

/-! ## Concrete fixtures used by witnesses and counterexamples -/

/-- The §8 scenario text. -/
def sampleText : String := "A is B."

def docOnA : Document := ⟨sampleText, [("source", MValue.str "a.txt")]⟩

def docOnB : Document := ⟨sampleText, [("source", MValue.str "b.txt")]⟩

def emptyStore : VectorStore := ⟨[], false⟩

/-- A store already holding the sample text (hash-stamped, as `add_documents`
stores it). -/
def seededStore : VectorStore := ⟨[withContentHash docOnA], false⟩

/-- The seeded store with an unreachable backend: the bulk `get()` raises. -/
def unreachableStore : VectorStore := ⟨[withContentHash docOnA], true⟩

def fileA : SrcFile :=
  { name := "a.txt", path := "/data/a.txt", stem := "a", suffix := ".txt",
    raw := some sampleText, soupTitle := none, soupText := "",
    docstrings := [], cells := none, pdfDocs := none }

def fileB : SrcFile :=
  { name := "b.txt", path := "/data/b.txt", stem := "b", suffix := ".txt",
    raw := some sampleText, soupTitle := none, soupText := "",
    docstrings := [], cells := none, pdfDocs := none }

/-- A file with no registered loader for its extension. -/
def docxFile : SrcFile :=
  { name := "c.docx", path := "/data/c.docx", stem := "c", suffix := ".docx",
    raw := some "irrelevant", soupTitle := none, soupText := "",
    docstrings := [], cells := none, pdfDocs := none }

/-- A readable but empty text file. -/
def emptyTxtFile : SrcFile :=
  { name := "empty.txt", path := "/data/empty.txt", stem := "empty",
    suffix := ".txt", raw := some "", soupTitle := none, soupText := "",
    docstrings := [], cells := none, pdfDocs := none }

/-- The document `load_text` emits for `emptyTxtFile`. -/
def emptyOutDoc : Document :=
  ⟨"", [("source", MValue.str "empty.txt"),
        ("file_path", MValue.str "/data/empty.txt"),
        ("file_type", MValue.str "text")]⟩

/-- A notebook whose only cell strips to nothing, so the placeholder
document is emitted. -/
def blankNotebook : SrcFile :=
  { name := "nb.ipynb", path := "/data/nb.ipynb", stem := "nb",
    suffix := ".ipynb", raw := some "raw", soupTitle := none, soupText := "",
    docstrings := [], cells := some [⟨"markdown", " "⟩], pdfDocs := none }

/-- The placeholder document `load_notebook` emits for `blankNotebook`. -/
def nbPlaceholderDoc : Document :=
  ⟨"Jupyter Notebook: nb.ipynb",
   [("source", MValue.str "nb.ipynb"), ("file_path", MValue.str "/data/nb.ipynb"),
    ("file_type", MValue.str "notebook"), ("cell_count", MValue.int 1)]⟩

/-- A chunk carrying both `page` and `cell_index` metadata (plus `title`). -/
def pageAndCellDoc : Document :=
  ⟨"body", [("page", MValue.int 3), ("cell_index", MValue.int 7),
            ("title", MValue.str "T")]⟩

/-! ## Dictionary lemmas -/

theorem dictLookup_dictInsert (m : Metadata) (k : String) (v : MValue) :
    dictLookup (dictInsert m k v) k = some v := by
  induction m with
  | nil => simp [dictInsert, dictLookup]
  | cons p rest ih =>
      by_cases h : p.1 = k
      · simp [dictInsert, dictLookup, h]
      · simp [dictInsert, dictLookup, h, ih]

theorem dictInsert_idem (m : Metadata) (k : String) (v : MValue) :
    dictInsert (dictInsert m k v) k v = dictInsert m k v := by
  induction m with
  | nil => simp [dictInsert]
  | cons p rest ih =>
      by_cases h : p.1 = k
      · simp [dictInsert, h]
      · simp [dictInsert, h, ih]

theorem withContentHash_idem (d : Document) :
    withContentHash (withContentHash d) = withContentHash d := by
  simp [withContentHash, dictInsert_idem]

theorem withContentHash_lookup (d : Document) :
    dictLookup (withContentHash d).metadata "content_hash" =
      some (MValue.str (_get_text_hash d.page_content)) := by
  simp [withContentHash, dictLookup_dictInsert]

/-! ## Ingestion helper lemmas -/

theorem loadAll_append (xs ys : List SrcFile) :
    loadAll (xs ++ ys) = loadAll xs ++ loadAll ys := by
  simp [loadAll]

theorem loadAll_error_cons (f : SrcFile) (fs : List SrcFile) (e : LoadErr)
    (hf : load_document f = .error e) :
    loadAll (f :: fs) = loadAll fs := by
  simp [loadAll, hf]

/-- Normal form of `ingest_documents`: the early all-zero return for an
empty file list agrees with the general formula, since loading, chunking
and adding nothing produce zeros. -/
theorem ingest_documents_eq (files : List SrcFile) (vs : VectorStore) :
    ingest_documents files vs =
      (⟨files.length, (loadAll files).length,
        (chunk_documents (loadAll files)).length,
        (add_documents vs (chunk_documents (loadAll files))).count⟩,
       (add_documents vs (chunk_documents (loadAll files))).store) := by
  unfold ingest_documents
  split
  · next hf => subst hf; simp [loadAll, chunk_documents, add_documents]
  · rfl

/-! ## Deduplication helper lemmas -/

/-- Shape of an `add_documents` call on a non-empty input. -/
theorem add_documents_spec (vs : VectorStore) (docs : List Document)
    (h : docs ≠ []) :
    (add_documents vs docs).store.stored =
      vs.stored ++ (docs.map withContentHash).filter (keepNew (existingHashes vs)) ∧
    (add_documents vs docs).store.get_raises = vs.get_raises ∧
    (add_documents vs docs).documents = docs.map withContentHash ∧
    (add_documents vs docs).count =
      ((docs.map withContentHash).filter (keepNew (existingHashes vs))).length := by
  unfold add_documents
  simp only [if_neg h]
  refine ⟨?_, ?_, True.intro, True.intro⟩ <;> split <;> simp_all

/-- When every input document's content hash is already among the existing
hashes, `add_documents` filters everything out: it returns 0 and leaves the
store untouched (only the caller's list is hash-stamped). -/
theorem add_documents_all_dup (vs : VectorStore) (docs : List Document)
    (h2 : ∀ d ∈ docs,
      MValue.str (_get_text_hash d.page_content) ∈ existingHashes vs) :
    add_documents vs docs = ⟨vs, docs.map withContentHash, 0⟩ := by
  rcases eq_or_ne docs [] with rfl | hne
  · simp [add_documents]
  · have hfil : (docs.map withContentHash).filter (keepNew (existingHashes vs)) = [] := by
      rw [List.filter_eq_nil_iff]
      intro x hx
      rcases List.mem_map.mp hx with ⟨d, hd, rfl⟩
      have hc : (existingHashes vs).contains
          (MValue.str (_get_text_hash d.page_content)) = true :=
        List.elem_eq_true_of_mem (h2 d hd)
      simp only [keepNew, withContentHash_lookup, hc, Bool.not_true,
        Bool.false_eq_true, not_false_eq_true]
    unfold add_documents
    simp [if_neg hne, hfil]

/-- When no hashes are visible to the duplicate scan, nothing is filtered:
every input document counts as new. -/
theorem add_documents_all_new (vs : VectorStore) (docs : List Document)
    (h : existingHashes vs = []) :
    (add_documents vs docs).count = docs.length ∧
    (docs ≠ [] →
      (add_documents vs docs).store.stored = vs.stored ++ docs.map withContentHash) := by
  have hfil : (docs.map withContentHash).filter (keepNew (existingHashes vs)) =
      docs.map withContentHash := by
    rw [List.filter_eq_self]
    intro x hx
    rcases List.mem_map.mp hx with ⟨d, _, rfl⟩
    simp [keepNew, withContentHash_lookup, h]
  rcases eq_or_ne docs [] with rfl | hne
  · simp [add_documents]
  · rcases add_documents_spec vs docs hne with ⟨hs, _, _, hc⟩
    rw [hfil] at hs hc
    exact ⟨by rw [hc, List.length_map], fun _ => hs⟩

/-! ## Claim C5 -/

/-- C5: `add_documents` returns 0 for an empty input and 0 for an input all
of whose content hashes are already present in the index; in both cases the
store is left untouched (only the caller's list is hash-stamped). -/
theorem add_documents_empty_and_duplicate_zero (vs : VectorStore)
    (docs : List Document) :
    add_documents vs [] = ⟨vs, [], 0⟩ ∧
    ((∀ d ∈ docs, MValue.str (_get_text_hash d.page_content) ∈ existingHashes vs) →
      add_documents vs docs = ⟨vs, docs.map withContentHash, 0⟩) :=
  ⟨by simp [add_documents], fun h2 => add_documents_all_dup vs docs h2⟩

/-- Witness for C5: the empty input and a fully-duplicate input against a
store already holding the sample text both come back with count 0 and the
store unchanged. -/
theorem add_documents_empty_and_duplicate_zero_witness :
    add_documents seededStore [] = ⟨seededStore, [], 0⟩ ∧
    add_documents seededStore [docOnB] =
      ⟨seededStore, [docOnB].map withContentHash, 0⟩ := by
  refine ⟨(add_documents_empty_and_duplicate_zero seededStore [docOnB]).1,
    (add_documents_empty_and_duplicate_zero seededStore [docOnB]).2 ?_⟩
  intro d hd
  rcases List.mem_singleton.mp hd with rfl
  simp [existingHashes, seededStore, withContentHash_lookup, docOnA, docOnB]

/-! ## Claim C3 (corrected) -/

/-- C3 counterexample: with the backend's bulk `get()` raising (index
unreachable) and an input whose content is already stored, `add_documents`
does not fail with `IndexUnavailable` and does not add nothing: it reports
one chunk added and appends a second record for the same content. -/
theorem index_unreachable_still_adds_counterexample :
    (add_documents unreachableStore [docOnB]).count = 1 ∧
    (add_documents unreachableStore [docOnB]).store.stored.length = 2 :=
  ⟨rfl, rfl⟩

/-- C3 amended: if the bulk read of existing content hashes fails, the
`except` branch silently treats the failure as "no duplicates exist": every
input chunk is considered new, counted, and (for a non-empty input) written. -/
theorem scan_failure_treated_as_no_duplicates (vs : VectorStore)
    (docs : List Document) (h : vs.get_raises = true) :
    (add_documents vs docs).count = docs.length ∧
    (docs ≠ [] →
      (add_documents vs docs).store.stored = vs.stored ++ docs.map withContentHash) := by
  apply add_documents_all_new
  simp [existingHashes, h]

/-- Witness for C3's amended statement at a concrete unreachable store. -/
theorem scan_failure_treated_as_no_duplicates_witness :
    (add_documents unreachableStore [docOnA, docOnB]).count = 2 := by
  have h := (scan_failure_treated_as_no_duplicates unreachableStore [docOnA, docOnB] rfl).1
  simpa using h

/-! ## Claim C1 (corrected) -/

/-- C1 counterexample: ingesting two files with identical content `"A is
B."` under different names into an empty store loads 2 documents but adds 2
chunks, not 1: the duplicate filter only consults hashes already persisted,
so in-batch duplicates all pass. -/
theorem ingest_identical_pair_counterexample :
    (ingest_documents [fileA, fileB] emptyStore).1.documents_loaded = 2 ∧
    (ingest_documents [fileA, fileB] emptyStore).1.chunks_added = 2 :=
  ⟨rfl, rfl⟩

/-- C1 amended: deduplication in one `add_documents` call is only against
hashes already persisted in the index, never within the batch: against an
empty reachable store every chunk of the batch is added, duplicated content
included, so the §8 scenario yields `documents_loaded = 2` and
`chunks_added = 2`. -/
theorem add_documents_no_batch_dedup (vs : VectorStore) (docs : List Document)
    (h0 : vs.stored = []) (h1 : vs.get_raises = false) :
    (add_documents vs docs).count = docs.length := by
  refine (add_documents_all_new vs docs ?_).1
  simp [existingHashes, h0, h1]

/-- Witness for C1's amended statement: both identical-content chunks are
counted against the empty store. -/
theorem add_documents_no_batch_dedup_witness :
    (add_documents emptyStore [docOnA, docOnB]).count = 2 := by
  have h := add_documents_no_batch_dedup emptyStore [docOnA, docOnB] rfl rfl
  simpa using h

/-! ## Claim C2 -/

/-- Re-adding a chunk batch against the store the first add produced filters
every chunk out: each chunk's content hash is in the store, either from
before the first add or stamped into the record the first add appended. -/
theorem add_documents_readd_zero (vs : VectorStore) (docs : List Document)
    (h : vs.get_raises = false) :
    add_documents (add_documents vs docs).store docs =
      ⟨(add_documents vs docs).store, docs.map withContentHash, 0⟩ := by
  have key : ∀ d ∈ docs, MValue.str (_get_text_hash d.page_content) ∈
      existingHashes (add_documents vs docs).store := by
    intro d hd
    have hne : docs ≠ [] := by rintro rfl; cases hd
    rcases add_documents_spec vs docs hne with ⟨hs, hg, -, -⟩
    have hg' : (add_documents vs docs).store.get_raises = false := by rw [hg, h]
    have hexp : existingHashes (add_documents vs docs).store =
        (vs.stored.filterMap (fun d => dictLookup d.metadata "content_hash")) ++
        (((docs.map withContentHash).filter
            (keepNew (existingHashes vs))).filterMap
          (fun d => dictLookup d.metadata "content_hash")) := by
      rw [existingHashes, if_neg (by rw [hg']; exact Bool.false_ne_true), hs,
        List.filterMap_append]
    rw [hexp]
    by_cases hv : MValue.str (_get_text_hash d.page_content) ∈ existingHashes vs
    · apply List.mem_append_left
      have : existingHashes vs =
          vs.stored.filterMap (fun d => dictLookup d.metadata "content_hash") := by
        rw [existingHashes, if_neg (by rw [h]; exact Bool.false_ne_true)]
      rwa [this] at hv
    · apply List.mem_append_right
      apply List.mem_filterMap.mpr
      refine ⟨withContentHash d, ?_, withContentHash_lookup d⟩
      apply List.mem_filter.mpr
      refine ⟨List.mem_map_of_mem withContentHash hd, ?_⟩
      have hcf : (existingHashes vs).contains
          (MValue.str (_get_text_hash d.page_content)) = false := by
        cases hcc : (existingHashes vs).contains
            (MValue.str (_get_text_hash d.page_content)) with
        | false => rfl
        | true => exact absurd (List.mem_of_elem_eq_true hcc) hv
      simp only [keepNew, withContentHash_lookup, hcf, Bool.not_false]
  exact add_documents_all_dup (add_documents vs docs).store docs key

/-- C2: ingestion is idempotent: running `ingest_documents` a second time
over the unchanged corpus against the persisted store the first run
produced returns `chunks_added = 0` and leaves the store, hence `count()`,
unchanged, because every chunk's content hash is already present in the
index. -/
theorem ingest_idempotent (files : List SrcFile) (vs : VectorStore)
    (h : vs.get_raises = false) :
    (ingest_documents files (ingest_documents files vs).2).1.chunks_added = 0 ∧
    (ingest_documents files (ingest_documents files vs).2).2 =
      (ingest_documents files vs).2 ∧
    countDocs (ingest_documents files (ingest_documents files vs).2).2 =
      countDocs (ingest_documents files vs).2 := by
  simp only [ingest_documents_eq]
  rw [add_documents_readd_zero vs (chunk_documents (loadAll files)) h]
  exact ⟨rfl, rfl, rfl⟩

/-- Witness for C2 at a concrete one-file corpus against the empty store. -/
theorem ingest_idempotent_witness :
    (ingest_documents [fileA] (ingest_documents [fileA] emptyStore).2).1.chunks_added = 0 ∧
    countDocs (ingest_documents [fileA] (ingest_documents [fileA] emptyStore).2).2 =
      countDocs (ingest_documents [fileA] emptyStore).2 := by
  have h := ingest_idempotent [fileA] emptyStore rfl
  exact ⟨h.1, h.2.2⟩

/-! ## Claim C4 -/

/-- C4: the content hash is a deterministic function of the chunk's exact
content string alone: any two chunks with identical content text receive
identical `content_hash` metadata values from the hash-stamping step of
`add_documents`, regardless of originating file path or any other
metadata. -/
theorem content_hash_depends_only_on_content (d1 d2 : Document)
    (h : d1.page_content = d2.page_content) :
    dictLookup (withContentHash d1).metadata "content_hash" =
      dictLookup (withContentHash d2).metadata "content_hash" ∧
    dictLookup (withContentHash d1).metadata "content_hash" =
      some (MValue.str (_get_text_hash d1.page_content)) := by
  refine ⟨?_, withContentHash_lookup d1⟩
  rw [withContentHash_lookup, withContentHash_lookup, h]

/-- Witness for C4 at two concrete chunks with equal content but different
`file_path` metadata. -/
theorem content_hash_depends_only_on_content_witness :
    dictLookup (withContentHash ⟨"A is B.", [("file_path", MValue.str "/data/a.txt")]⟩).metadata
        "content_hash" =
      dictLookup (withContentHash ⟨"A is B.", [("file_path", MValue.str "/data/b.txt")]⟩).metadata
        "content_hash" ∧
    dictLookup (withContentHash ⟨"A is B.", [("file_path", MValue.str "/data/a.txt")]⟩).metadata
        "content_hash" =
      some (MValue.str (_get_text_hash "A is B.")) :=
  content_hash_depends_only_on_content _ _ rfl

/-! ## Claim C10 -/

/-- C10: `add_documents` mutates its input in place: the caller's document
list after the call is exactly the input with a `content_hash` key written
into every document's metadata (done before the duplicate check), so even a
document that is filtered out as a duplicate and never stored has had its
caller-owned metadata modified. -/
theorem add_documents_mutates_metadata (vs : VectorStore) (docs : List Document) :
    (add_documents vs docs).documents = docs.map withContentHash ∧
    ∀ d ∈ docs, dictLookup (withContentHash d).metadata "content_hash" =
      some (MValue.str (_get_text_hash d.page_content)) := by
  constructor
  · unfold add_documents
    split
    · simp [*]
    · rfl
  · intro d _
    exact withContentHash_lookup d

/-- Witness for C10: a duplicate input against a store already holding the
same content still comes back hash-stamped. -/
theorem add_documents_mutates_metadata_witness :
    (add_documents seededStore [docOnB]).documents = [docOnB].map withContentHash ∧
    dictLookup (withContentHash docOnB).metadata "content_hash" =
      some (MValue.str (_get_text_hash docOnB.page_content)) :=
  ⟨(add_documents_mutates_metadata seededStore [docOnB]).1,
   (add_documents_mutates_metadata seededStore [docOnB]).2 docOnB (by simp)⟩

/-! ## Claim C9 -/

/-- C9: `format_sources` derives each chunk's `location` by the fixed
precedence `page`, then `cell_index`, then `title`, then the literal
`"N/A"`; exactly one case applies per chunk, so a chunk carrying both `page`
and `cell_index` reports the `page`-derived location, and a chunk with none
of the three keys reports `"N/A"`. -/
theorem format_sources_location_precedence (docs : List Document) (d : Document)
    (hd : d ∈ docs) :
    formatSource d ∈ format_sources docs ∧
    (∀ v, dictLookup d.metadata "page" = some v →
      (formatSource d).location = "Page " ++ pyStr v) ∧
    (dictLookup d.metadata "page" = none →
      ∀ v, dictLookup d.metadata "cell_index" = some v →
      (formatSource d).location = "Cell " ++ pyStr v) ∧
    (dictLookup d.metadata "page" = none →
      dictLookup d.metadata "cell_index" = none →
      ∀ v, dictLookup d.metadata "title" = some v →
      (formatSource d).location = "Title: " ++ pyStr v) ∧
    (dictLookup d.metadata "page" = none →
      dictLookup d.metadata "cell_index" = none →
      dictLookup d.metadata "title" = none →
      (formatSource d).location = "N/A") := by
  refine ⟨List.mem_map_of_mem formatSource hd, ?_, ?_, ?_, ?_⟩
  · intro v hv
    simp [formatSource, hv]
  · intro hp v hv
    simp [formatSource, hp, hv]
  · intro hp hc v hv
    simp [formatSource, hp, hc, hv]
  · intro hp hc ht
    simp [formatSource, hp, hc, ht]

/-- Witness for C9 at a chunk carrying `page`, `cell_index` and `title`
metadata at once: `page` wins. -/
theorem format_sources_location_precedence_witness :
    formatSource pageAndCellDoc ∈ format_sources [pageAndCellDoc] ∧
    (formatSource pageAndCellDoc).location = "Page " ++ pyStr (MValue.int 3) :=
  ⟨(format_sources_location_precedence [pageAndCellDoc] pageAndCellDoc (by simp)).1,
   (format_sources_location_precedence [pageAndCellDoc] pageAndCellDoc (by simp)).2.1
     (MValue.int 3) (by decide)⟩

/-! ## Claim C6 -/

/-- C6: a file whose lowercased extension has no registered loader fails
with the `Unsupported file type` `ValueError`; this and any other per-file
loading failure is caught at the dispatch boundary, so the batch continues
with the remaining files — the statistics and resulting store are the same
as for the batch without the failing file, except that `files_found` counts
it — and the four-key summary is still returned. -/
theorem unsupported_format_is_per_file_error (fs1 fs2 : List SrcFile)
    (f : SrcFile) (vs : VectorStore) :
    (assocLookup LOADER_MAP (strLower f.suffix) = none →
      load_document f = Except.error
        (LoadErr.valueError ("Unsupported file type: " ++ strLower f.suffix))) ∧
    (∀ e, load_document f = Except.error e →
      (ingest_documents (fs1 ++ f :: fs2) vs).1.files_found =
        (ingest_documents (fs1 ++ fs2) vs).1.files_found + 1 ∧
      (ingest_documents (fs1 ++ f :: fs2) vs).1.documents_loaded =
        (ingest_documents (fs1 ++ fs2) vs).1.documents_loaded ∧
      (ingest_documents (fs1 ++ f :: fs2) vs).1.chunks_created =
        (ingest_documents (fs1 ++ fs2) vs).1.chunks_created ∧
      (ingest_documents (fs1 ++ f :: fs2) vs).1.chunks_added =
        (ingest_documents (fs1 ++ fs2) vs).1.chunks_added ∧
      (ingest_documents (fs1 ++ f :: fs2) vs).2 =
        (ingest_documents (fs1 ++ fs2) vs).2) := by
  constructor
  · intro hno
    simp [load_document, hno]
  · intro e he
    have hload : loadAll (fs1 ++ f :: fs2) = loadAll (fs1 ++ fs2) := by
      rw [loadAll_append, loadAll_append, loadAll_error_cons f fs2 e he]
    rw [ingest_documents_eq, ingest_documents_eq]
    refine ⟨?_, by simp [hload], by simp [hload], by simp [hload], by simp [hload]⟩
    simp [List.length_append]
    omega

/-- Witness for C6: a `.docx` file among the batch is reported as an
unsupported type and does not change what the rest of the batch loads. -/
theorem unsupported_format_is_per_file_error_witness :
    load_document docxFile = Except.error
      (LoadErr.valueError ("Unsupported file type: " ++ strLower docxFile.suffix)) ∧
    (ingest_documents [docxFile] emptyStore).1.files_found =
      (ingest_documents [] emptyStore).1.files_found + 1 ∧
    (ingest_documents [docxFile] emptyStore).1.documents_loaded =
      (ingest_documents [] emptyStore).1.documents_loaded := by
  have h := unsupported_format_is_per_file_error [] [] docxFile emptyStore
  have h1 := h.1 rfl
  have h2 := h.2 _ h1
  exact ⟨h1, h2.1, h2.2.1⟩

/-! ## Claim C8 (corrected) -/

/-- C8 counterexample: `load_text` on a readable but empty text file emits
one document whose content is empty — loaders do not drop empty-content
documents. -/
theorem empty_content_not_dropped_counterexample :
    load_text emptyTxtFile = Except.ok [emptyOutDoc] ∧
    emptyOutDoc.page_content = "" :=
  ⟨rfl, rfl⟩

theorem notebookCellDocs_nonempty (f : SrcFile) (cells : List NbCell)
    (d : Document) (hd : d ∈ notebookCellDocs f cells) :
    d.page_content ≠ "" := by
  rcases List.mem_filterMap.mp hd with ⟨p, _, hfp⟩
  dsimp only [notebookCellDocs] at hfp
  split at hfp
  · exact absurd hfp (by simp)
  · next content heq =>
      split at hfp
      · next hcond =>
          cases hfp
          exact hcond.1
      · exact absurd hfp (by simp)

/-- C8 amended: the notebook loader never emits an empty-content document —
cell documents must have non-empty (strippable-to-non-empty) content and
the fallback document's content is non-empty — but the text loader does not
drop empty content: it emits exactly one document whose content is the raw
file text, even when that text is empty. -/
theorem notebook_nonempty_text_passthrough (f : SrcFile) :
    (∀ docs, load_notebook f = Except.ok docs → ∀ d ∈ docs, d.page_content ≠ "") ∧
    (∀ content, f.raw = some content →
      load_text f = Except.ok [⟨content,
        [("source", MValue.str f.name), ("file_path", MValue.str f.path),
         ("file_type", MValue.str
           (if strLower f.suffix = ".md" then "markdown" else "text"))]⟩]) := by
  constructor
  · intro docs hdocs d hd
    unfold load_notebook at hdocs
    rcases hr : f.raw with - | r <;> rw [hr] at hdocs
    · exact absurd hdocs (by simp)
    rcases hc : f.cells with - | cells <;> rw [hc] at hdocs
    · exact absurd hdocs (by simp)
    dsimp only at hdocs
    split at hdocs
    · cases hdocs
      rcases List.mem_singleton.mp hd with rfl
      intro hcontra
      have hdata : ("Jupyter Notebook: " ++ f.name).data = [] :=
        congrArg String.data hcontra
      rw [String.data_append] at hdata
      simp at hdata
    · cases hdocs
      exact notebookCellDocs_nonempty f cells d hd
  · intro content hc
    simp [load_text, hc]

/-- Witness for C8's amended statement: the placeholder document of a
notebook whose one cell strips to nothing is non-empty, and `load_text`
passes the sample file's raw text through. -/
theorem notebook_nonempty_text_passthrough_witness :
    nbPlaceholderDoc.page_content ≠ "" ∧
    load_text fileA = Except.ok [⟨sampleText,
      [("source", MValue.str fileA.name), ("file_path", MValue.str fileA.path),
       ("file_type", MValue.str
         (if strLower fileA.suffix = ".md" then "markdown" else "text"))]⟩] :=
  ⟨(notebook_nonempty_text_passthrough blankNotebook).1 [nbPlaceholderDoc] rfl
      nbPlaceholderDoc (List.mem_singleton.mpr rfl),
   (notebook_nonempty_text_passthrough fileA).2 sampleText rfl⟩

/-! ## Chunk-size bound (claim C7)

The configured splitter merges with separator `""` (`keep_separator=True`),
so every emitted chunk's length is bounded by the window total, which the
merge loop keeps at or below `chunk_size`; oversized pieces are always
splittable further because the separator cascade ends in `""`. -/

theorem dropWhile_length_le (p : Char → Bool) (l : List Char) :
    (l.dropWhile p).length ≤ l.length := by
  induction l with
  | nil => simp [List.dropWhile]
  | cons a t ih =>
      rw [List.dropWhile_cons]
      split
      · exact Nat.le_succ_of_le ih
      · simp

theorem pyStrip_length_le (s : List Char) : (pyStrip s).length ≤ s.length := by
  unfold pyStrip
  rw [List.length_reverse]
  calc ((s.dropWhile isPyWs).reverse.dropWhile isPyWs).length
      ≤ (s.dropWhile isPyWs).reverse.length := dropWhile_length_le _ _
    _ = (s.dropWhile isPyWs).length := List.length_reverse _
    _ ≤ s.length := dropWhile_length_le _ _

theorem intercalate_nil_length (ds : List (List Char)) :
    (List.intercalate [] ds).length = (ds.map List.length).sum := by
  rw [List.intercalate]
  induction ds with
  | nil => rfl
  | cons a t ih =>
      cases t with
      | nil => simp
      | cons b t' =>
          rw [List.intersperse_cons_cons] at *
          simp only [List.flatten, List.length_append, List.map_cons,
            List.sum_cons] at *
          simp at ih ⊢
          omega

theorem joinDocs_nil_le (ds : List (List Char)) (t : List Char)
    (h : joinDocs [] ds = some t) : t.length ≤ (ds.map List.length).sum := by
  unfold joinDocs at h
  split at h
  · cases h
  · cases h
    rw [← intercalate_nil_length]
    exact pyStrip_length_le _

theorem popLoop_sum_spec (cs co dLen : Nat) :
    ∀ (cur : List (List Char)) (total : Nat),
      total = (cur.map List.length).sum →
      ((popLoop cs co 0 dLen cur total).2 =
          (((popLoop cs co 0 dLen cur total).1).map List.length).sum ∧
        (popLoop cs co 0 dLen cur total).2 ≤ co ∧
        ((popLoop cs co 0 dLen cur total).2 + dLen ≤ cs ∨
          (popLoop cs co 0 dLen cur total).2 = 0)) := by
  intro cur
  induction cur with
  | nil =>
      intro total ht
      simp only [List.map_nil, List.sum_nil] at ht
      subst ht
      exact ⟨rfl, Nat.zero_le co, Or.inr rfl⟩
  | cons c cur ih =>
      intro total ht
      simp only [List.map_cons, List.sum_cons] at ht
      rw [popLoop]
      by_cases hcond : total > co ∨ (total + dLen + 0 > cs ∧ total > 0)
      · rw [if_pos hcond]
        apply ih
        have : (c.length + if cur = [] then 0 else 0) = c.length := by
          split <;> rfl
        rw [this]
        omega
      · rw [if_neg hcond]
        push_neg at hcond
        exact ⟨ht, hcond.1, by omega⟩

theorem mergeLoop_bound (cs co : Nat) :
    ∀ (ds cur : List (List Char)) (total : Nat),
      total = (cur.map List.length).sum → total ≤ cs →
      (∀ d ∈ ds, d.length < cs) →
      ∀ out ∈ mergeLoop [] cs co ds cur total, out.length ≤ cs := by
  intro ds
  induction ds with
  | nil =>
      intro cur total ht hle _ out hout
      rw [mergeLoop] at hout
      split at hout
      · next t hj =>
          rcases List.mem_singleton.mp hout with rfl
          calc out.length ≤ (cur.map List.length).sum := joinDocs_nil_le cur out hj
            _ = total := ht.symm
            _ ≤ cs := hle
      · cases hout
  | cons d ds ih =>
      intro cur total ht hle hlt out hout
      have hdlt : d.length < cs := hlt d (List.mem_cons_self d ds)
      have hlt' : ∀ x ∈ ds, x.length < cs :=
        fun x hx => hlt x (List.mem_cons_of_mem d hx)
      rw [mergeLoop] at hout
      simp only [List.length_nil, ite_self, Nat.add_zero] at hout
      by_cases hgt : total + d.length > cs
      · rw [if_pos hgt] at hout
        by_cases hcur : cur = []
        · rw [if_pos hcur] at hout
          subst hcur
          simp only [List.map_nil, List.sum_nil] at ht
          subst ht
          exact ih [d] (0 + d.length) (by simp) (by omega) hlt' out hout
        · rw [if_neg hcur] at hout
          rcases List.mem_append.mp hout with hmem | hmem
          · rcases hj : joinDocs [] cur with - | t
            · rw [hj] at hmem
              cases hmem
            · rw [hj] at hmem
              rcases List.mem_singleton.mp hmem with rfl
              calc out.length ≤ (cur.map List.length).sum := joinDocs_nil_le cur out hj
                _ = total := ht.symm
                _ ≤ cs := hle
          · rcases popLoop_sum_spec cs co d.length cur total ht with ⟨hp1, hp2, hp3⟩
            refine ih _ _ ?_ ?_ hlt' out hmem
            · rw [List.map_append, List.sum_append]
              simp only [List.map_cons, List.sum_cons, List.map_nil, List.sum_nil]
              omega
            · omega
      · rw [if_neg hgt] at hout
        refine ih _ _ ?_ ?_ hlt' out hout
        · rw [List.map_append, List.sum_append]
          simp only [List.map_cons, List.sum_cons, List.map_nil, List.sum_nil]
          omega
        · omega

theorem mergeSplits_bound (cs co : Nat) (splits : List (List Char))
    (h : ∀ s ∈ splits, s.length < cs) :
    ∀ out ∈ mergeSplits cs co splits [], out.length ≤ cs :=
  mergeLoop_bound cs co splits [] 0 rfl (Nat.zero_le cs) h

theorem processSplits_bound (cs co : Nat) (recurse : List Char → List (List Char))
    (restEmpty : Bool) :
    ∀ (splits good : List (List Char)),
      (∀ g ∈ good, g.length < cs) →
      (∀ s ∈ splits, cs ≤ s.length →
        restEmpty = false ∧ ∀ c ∈ recurse s, c.length ≤ cs) →
      ∀ c ∈ processSplits cs co recurse restEmpty [] splits good, c.length ≤ cs := by
  intro splits
  induction splits with
  | nil =>
      intro good hg _ c hc
      rw [processSplits] at hc
      split at hc
      · cases hc
      · exact mergeSplits_bound cs co good hg c hc
  | cons s ss ih =>
      intro good hg hbig c hc
      have hbig' : ∀ x ∈ ss, cs ≤ x.length →
          restEmpty = false ∧ ∀ c ∈ recurse x, c.length ≤ cs :=
        fun x hx => hbig x (List.mem_cons_of_mem s hx)
      rw [processSplits] at hc
      split at hc
      · next hslt =>
          refine ih (good ++ [s]) ?_ hbig' c hc
          intro g hgm
          rcases List.mem_append.mp hgm with hgm | hgm
          · exact hg g hgm
          · rcases List.mem_singleton.mp hgm with rfl
            omega
      · next hsge =>
          have hs : cs ≤ s.length := Nat.le_of_not_lt hsge
          rcases hbig s (List.mem_cons_self s ss) hs with ⟨hre, hrec⟩
          rcases List.mem_append.mp hc with hm | hm
          · rcases List.mem_append.mp hm with hm' | hm'
            · split at hm'
              · cases hm'
              · exact mergeSplits_bound cs co good hg c hm'
            · rw [hre] at hm'
              simp only [Bool.false_eq_true, if_false] at hm'
              exact hrec c hm'
          · exact ih [] (by simp) hbig' c hm

theorem splitTextWithSep_nil_sing (text : List Char) :
    ∀ s ∈ splitTextWithSep [] text, s.length = 1 := by
  intro s hs
  unfold splitTextWithSep at hs
  rw [if_pos rfl] at hs
  rcases List.mem_filter.mp hs with ⟨hmem, -⟩
  rcases List.mem_map.mp hmem with ⟨c, -, rfl⟩
  rfl

theorem chooseSepAux_spec (text dflt : List Char) :
    ∀ l : List (List Char),
      (chooseSepAux text dflt l).2 = [] ∨
      ((chooseSepAux text dflt l).2.length < l.length ∧
        (chooseSepAux text dflt l).2.getLast? = l.getLast?) := by
  intro l
  induction l with
  | nil => exact Or.inl rfl
  | cons s rest ih =>
      rw [chooseSepAux]
      split
      · exact Or.inl rfl
      · split
        · cases rest with
          | nil => exact Or.inl rfl
          | cons b t =>
              exact Or.inr ⟨Nat.lt_succ_self _, rfl⟩
        · rcases ih with h | ⟨h1, h2⟩
          · exact Or.inl h
          · refine Or.inr ⟨Nat.lt_succ_of_lt h1, ?_⟩
            rw [h2]
            cases hrest : rest with
            | nil =>
                subst hrest
                simp [chooseSepAux] at h1
            | cons b t => rfl

theorem chooseSepAux_empty (text : List Char) :
    ∀ l : List (List Char), l.getLast? = some [] →
      (chooseSepAux text [] l).2 = [] → (chooseSepAux text [] l).1 = [] := by
  intro l
  induction l with
  | nil => intro h; simp at h
  | cons s rest ih =>
      intro hlast hres
      rw [chooseSepAux] at hres ⊢
      by_cases hse : s = []
      · rw [if_pos hse] at hres ⊢
      · rw [if_neg hse] at hres ⊢
        by_cases hsub : hasSublist s text = true
        · rw [if_pos hsub] at hres ⊢
          exfalso
          cases rest with
          | nil => simp [List.getLast?] at hlast; exact hse hlast
          | cons b t => exact absurd hres (by simp)
        · rw [if_neg hsub] at hres ⊢
          cases hrest : rest with
          | nil =>
              subst hrest
              rw [chooseSepAux]
          | cons b t =>
              subst hrest
              exact ih hlast hres

/-- For a separator cascade ending in `""`: an empty remaining-separators
list means the chosen separator is `""`, and a non-empty one is strictly
shorter and still ends in `""`. -/
theorem chooseSep_empty_sep (seps : List (List Char)) (text : List Char)
    (hlast : seps.getLast? = some []) :
    ((chooseSep seps text).2 = [] → (chooseSep seps text).1 = []) ∧
    ((chooseSep seps text).2 ≠ [] →
      ((chooseSep seps text).2.length < seps.length ∧
        (chooseSep seps text).2.getLast? = some [])) := by
  have hd : (seps.getLast?).getD [] = [] := by rw [hlast]; rfl
  constructor
  · intro h
    unfold chooseSep at h ⊢
    rw [hd] at h ⊢
    exact chooseSepAux_empty text seps hlast h
  · intro h
    unfold chooseSep at h ⊢
    rcases chooseSepAux_spec text ((seps.getLast?).getD []) seps with h0 | ⟨h1, h2⟩
    · exact absurd h0 h
    · exact ⟨h1, by rw [h2, hlast]⟩

theorem splitTextFuel_bound (cs co : Nat) (hcs : 1 < cs) :
    ∀ (fuel : Nat) (seps : List (List Char)) (text : List Char),
      seps.length < fuel → seps.getLast? = some [] →
      ∀ c ∈ splitTextFuel cs co fuel seps text, c.length ≤ cs := by
  intro fuel
  induction fuel with
  | zero => intro seps text h; omega
  | succ n ih =>
      intro seps text hlen hlast c hc
      rw [splitTextFuel] at hc
      refine processSplits_bound cs co _ _ _ [] (by simp) ?_ c hc
      intro s hs hsge
      by_cases hrest : (chooseSep seps text).2 = []
      · exfalso
        have hsep : (chooseSep seps text).1 = [] :=
          (chooseSep_empty_sep seps text hlast).1 hrest
        rw [hsep] at hs
        have := splitTextWithSep_nil_sing text s hs
        omega
      · rcases (chooseSep_empty_sep seps text hlast).2 hrest with ⟨hl, hlast'⟩
        constructor
        · cases h2 : (chooseSep seps text).2 with
          | nil => exact absurd h2 hrest
          | cons x xs => rfl
        · intro c' hc'
          exact ih (chooseSep seps text).2 s (by omega) hlast' c' hc'

theorem splitText_bound (text : List Char) :
    ∀ c ∈ splitText text, c.length ≤ CHUNK_SIZE := by
  intro c hc
  unfold splitText at hc
  exact splitTextFuel_bound CHUNK_SIZE CHUNK_OVERLAP (by decide)
    (SEPARATORS.length + 1) SEPARATORS text (by omega) (by decide) c hc

/-! ## Claim C7 -/

/-- C7: every chunk the configured chunker (`chunk_size = 1000`,
`chunk_overlap = 200`) produces from any document has content length at
most `chunk_size + chunk_overlap` (in fact at most `chunk_size`: the merge
loop never lets a window exceed the target, and the separator cascade ends
in the character-level split). -/
theorem chunk_content_length_bound (documents : List Document) (c : Document)
    (hc : c ∈ chunk_documents documents) :
    c.page_content.length ≤ CHUNK_SIZE + CHUNK_OVERLAP := by
  rcases List.mem_flatMap.mp hc with ⟨d, _, hcd⟩
  rcases List.mem_map.mp hcd with ⟨chunk, hchunk, rfl⟩
  have hb := splitText_bound d.page_content.data chunk hchunk
  exact le_trans hb (Nat.le_add_right _ _)

/-- Witness for C7 at a concrete document. -/
theorem chunk_content_length_bound_witness :
    (⟨sampleText, [("source", MValue.str "a.txt")]⟩ : Document).page_content.length ≤
      CHUNK_SIZE + CHUNK_OVERLAP :=
  chunk_content_length_bound [docOnA]
    ⟨sampleText, [("source", MValue.str "a.txt")]⟩ (by decide)

end RagApp
